import Mathlib

/-!
Verification development for the Health & Nutrition AI Coach API
(source files `main.py`, `health_coach.py`, `models.py`).

Embedding conventions: Python floats are modelled as rationals and Python
ints as integers; the built-in `round` is modelled as round-half-to-even
(`pyRound`); JSON values are the inductive type `Json`; raised exceptions
are modelled with `Except`, distinguishing `ValueError` from other
exception classes where the HTTP layer branches on the class (`PyExn`).
-/

/-- Python's built-in `round` to an integer: round half to even
(banker's rounding). -/
def pyRound (q : ℚ) : ℤ :=
  let f := ⌊q⌋
  let r := q - (f : ℚ)
  if r < 1/2 then f
  else if 1/2 < r then f + 1
  else if f % 2 = 0 then f else f + 1

/-- ASCII lower-casing of one character, as `str.lower` acts on the ASCII
range (all strings compared by the program are ASCII). -/
def lowerChar (c : Char) : Char :=
  if 'A' ≤ c ∧ c ≤ 'Z' then Char.ofNat (c.toNat + 32) else c

/-- `str.lower` on ASCII strings. -/
def strLower (s : String) : String :=
  ⟨s.data.map lowerChar⟩

/-- `leadsWith n h` is true when `n` is an initial run of `h`. -/
def leadsWith : List Char → List Char → Bool
  | [], _ => true
  | _ :: _, [] => false
  | a :: s, b :: t => a == b && leadsWith s t

/-- Python's `needle in hay` for strings: contiguous-substring test. -/
def subStr (needle : List Char) : List Char → Bool
  | [] => needle.isEmpty
  | c :: t => leadsWith needle (c :: t) || subStr needle t

/-- A user profile as passed to the `HealthCoach` methods
(`input_data.dict()` in `main.py`).  `dietary_restrictions` and
`meal_preferences` only feed prompt text and are never read by the
computations modelled here, so they are omitted. -/
structure ProfileData where
  age : ℤ
  weight : ℚ
  height : ℚ
  goals : List String
  activity_level : String
deriving DecidableEq

/-- `models.NutritionGoals`: the five fields the pydantic model declares.
`HealthCoach.get_nutrition_goals` passes further keyword arguments
(hydration, meal timing, micronutrient focus, supplements) but those are
not fields of the model and pydantic discards unknown keyword arguments,
so the returned object carries exactly these five numbers. -/
structure NutritionGoals where
  calories : ℤ
  protein : ℤ
  carbs : ℤ
  fat : ℤ
  fiber : ℤ
deriving DecidableEq

/-- The `activity_multipliers` table of `HealthCoach.get_nutrition_goals`
(health_coach.py lines 367-373), together with the
`.get(activity_level, 1.55)` fallback of line 376. -/
def activityMultipliers (level : String) : ℚ :=
  if level = "sedentary" then 1.2
  else if level = "light" then 1.375
  else if level = "moderate" then 1.55
  else if level = "active" then 1.725
  else if level = "very_active" then 1.9
  else 1.55

/-- `HealthCoach.get_nutrition_goals` (health_coach.py lines 354-429).
BMR by the Mifflin-St Jeor form, TDEE by the activity multiplier table,
calorie adjustment testing `weight_loss` before `muscle_gain`, macro
ratios testing `muscle_gain` before `weight_loss` (lines 392-399), grams
at 4/4/9 kcal per gram, fiber at half the body weight, every output
rounded by Python's `round`. -/
def get_nutrition_goals (p : ProfileData) : NutritionGoals :=
  let bmr : ℚ := 10 * p.weight + 6.25 * p.height - 5 * (p.age : ℚ)
  let tdee : ℚ := bmr * activityMultipliers p.activity_level
  let calorie_adjustment : ℚ :=
    if "weight_loss" ∈ p.goals then -500
    else if "muscle_gain" ∈ p.goals then 300
    else 0
  let final_calories : ℚ := tdee + calorie_adjustment
  let protein_ratio : ℚ :=
    if "muscle_gain" ∈ p.goals then 0.35
    else if "weight_loss" ∈ p.goals then 0.40
    else 0.3
  let fat_ratio : ℚ :=
    if "muscle_gain" ∈ p.goals then 0.20
    else if "weight_loss" ∈ p.goals then 0.30
    else 0.25
  let carb_ratio : ℚ :=
    if "muscle_gain" ∈ p.goals then 0.45
    else if "weight_loss" ∈ p.goals then 0.30
    else 0.45
  { calories := pyRound final_calories
    protein := pyRound (final_calories * protein_ratio / 4)
    carbs := pyRound (final_calories * carb_ratio / 4)
    fat := pyRound (final_calories * fat_ratio / 9)
    fiber := pyRound (p.weight * 0.5) }

/-- The TDEE of a profile, named for readability of statements about
`get_nutrition_goals`. -/
def tdeeOf (p : ProfileData) : ℚ :=
  (10 * p.weight + 6.25 * p.height - 5 * (p.age : ℚ)) * activityMultipliers p.activity_level

/-- Modelled from the spec's words (section 4.1 step 4: "weight_loss again
takes precedence over muscle_gain when both are present"): the variant of
the nutrition-goal computation in which the `weight_loss` macro ratios
win when both goals are present.  It exists only to be compared with
`get_nutrition_goals`, whose ratio branch tests `muscle_gain` first. -/
def claimedNutritionGoals (p : ProfileData) : NutritionGoals :=
  let bmr : ℚ := 10 * p.weight + 6.25 * p.height - 5 * (p.age : ℚ)
  let tdee : ℚ := bmr * activityMultipliers p.activity_level
  let calorie_adjustment : ℚ :=
    if "weight_loss" ∈ p.goals then -500
    else if "muscle_gain" ∈ p.goals then 300
    else 0
  let final_calories : ℚ := tdee + calorie_adjustment
  let protein_ratio : ℚ :=
    if "weight_loss" ∈ p.goals then 0.40
    else if "muscle_gain" ∈ p.goals then 0.35
    else 0.3
  let fat_ratio : ℚ :=
    if "weight_loss" ∈ p.goals then 0.30
    else if "muscle_gain" ∈ p.goals then 0.20
    else 0.25
  let carb_ratio : ℚ :=
    if "weight_loss" ∈ p.goals then 0.30
    else if "muscle_gain" ∈ p.goals then 0.45
    else 0.45
  { calories := pyRound final_calories
    protein := pyRound (final_calories * protein_ratio / 4)
    carbs := pyRound (final_calories * carb_ratio / 4)
    fat := pyRound (final_calories * fat_ratio / 9)
    fiber := pyRound (p.weight * 0.5) }

/-- The `activity_level` pattern of `models.HealthInput`
(`^(light|moderate|active|very_active)$`, models.py line 99): anchored at
both ends, so it accepts exactly these four strings. -/
def validActivityLevel (level : String) : Bool :=
  level == "light" || level == "moderate" || level == "active" || level == "very_active"

/-- The field constraints of `models.HealthInput` (models.py lines
93-100): age in (0,120], weight in (0,500], height in (0,300], at least
one goal, and the anchored activity-level pattern. -/
def healthInputAccepts (age : ℤ) (weight height : ℚ) (goals : List String)
    (level : String) : Bool :=
  (0 < age && age ≤ 120) && (0 < weight && weight ≤ 500) &&
  (0 < height && height ≤ 300) && (1 ≤ goals.length) && validActivityLevel level

/-! ## JSON values and Python container semantics -/

/-- A parsed JSON value, the result of `json.loads`.  Python dicts are
kept as association lists in insertion order; `json.loads` keeps the
last occurrence of a duplicated key, which `lookupLast` mirrors. -/
inductive Json where
  | null : Json
  | bool : Bool → Json
  | num : ℚ → Json
  | str : String → Json
  | arr : List Json → Json
  | obj : List (String × Json) → Json

/-- Dictionary lookup where a later binding shadows an earlier one, as in
a Python dict built by `json.loads`. -/
def lookupLast (kvs : List (String × Json)) (k : String) : Option Json :=
  kvs.foldl (fun acc kv => if kv.1 = k then some kv.2 else acc) none

/-- Key-membership test on an association list (`k in d` for a dict). -/
def hasKeyB (kvs : List (String × Json)) (k : String) : Bool :=
  kvs.any (fun kv => kv.1 == k)

/-- Python's `k in container` for a string `k`: key membership for a
dict, element equality for a list (only a string element can equal `k`),
substring test for a string, and a `TypeError` otherwise. -/
def pyContains (container : Json) (k : String) : Except String Bool :=
  match container with
  | Json.obj kvs => .ok (hasKeyB kvs k)
  | Json.arr xs => .ok (xs.any (fun x => match x with | Json.str s => s == k | _ => false))
  | Json.str s => .ok (subStr k.data s.data)
  | _ => .error "TypeError: argument is not a container"

/-- Python's `container[k]` for a string key: dict lookup (`KeyError`
when absent), `TypeError` on any non-dict value. -/
def pyIndex (container : Json) (k : String) : Except String Json :=
  match container with
  | Json.obj kvs =>
    match lookupLast kvs k with
    | some v => .ok v
    | none => .error "KeyError"
  | _ => .error "TypeError: value is not a dict"

/-- Python's `d.get(k)` on a dict, `None` when absent. -/
def pyGet (container : Json) (k : String) : Option Json :=
  match container with
  | Json.obj kvs => lookupLast kvs k
  | _ => none

/-- Python's `all(f in container for f in fields)` with short-circuiting
generator evaluation; a `TypeError` raised by the first test propagates. -/
def pyAllContains (container : Json) : List String → Except String Bool
  | [] => .ok true
  | k :: ks =>
    match pyContains container k with
    | .error e => .error e
    | .ok false => .ok false
    | .ok true => pyAllContains container ks

/-- A Python `for` loop whose body may raise: the first raised exception
aborts the loop. -/
def exceptForEach {α : Type} : List α → (α → Except String Unit) → Except String Unit
  | [], _ => .ok ()
  | x :: xs, f =>
    match f x with
    | .error e => .error e
    | .ok _ => exceptForEach xs f

/-! ## Meal-plan response validation (`HealthCoach.generate_meal_plan`) -/

/-- The exception model at the HTTP boundary: FastAPI handlers branch on
whether a raised exception is a `ValueError`. -/
inductive PyExn where
  | valueError : String → PyExn
  | otherError : String → PyExn
deriving DecidableEq

/-- The top-level keys required of a meal-plan payload
(health_coach.py line 147). -/
def requiredMealPlanFields : List String :=
  ["meals", "total_calories", "total_protein", "total_carbs", "total_fat", "total_fiber"]

/-- The five per-meal nutrient keys (health_coach.py line 167). -/
def requiredNutrientFields : List String :=
  ["calories", "protein", "carbs", "fat", "fiber"]

/-- The weekday keys, in the order the validation loops walk them
(health_coach.py lines 152 and 311). -/
def weekdays : List String :=
  ["monday", "tuesday", "wednesday", "thursday", "friday", "saturday", "sunday"]

/-- health_coach.py lines 146-149: `all(field in meal_plan_data for field
in required_fields)` or raise. -/
def checkRequiredFields (data : Json) : Except String Unit :=
  match pyAllContains data requiredMealPlanFields with
  | .error e => .error e
  | .ok false => .error "Missing required fields in meal plan data"
  | .ok true => .ok ()

/-- health_coach.py lines 160-169: per-meal-item validation for one item
of one day. -/
def checkMeal (day : String) (meal : Json) : Except String Unit :=
  match pyAllContains meal ["item", "portion"] with
  | .error e => .error e
  | .ok false => .error ("Missing required fields in meal item for " ++ day)
  | .ok true =>
    match pyContains meal "nutrients" with
    | .error e => .error e
    | .ok false => .ok ()
    | .ok true =>
      match pyIndex meal "nutrients" with
      | .error e => .error e
      | .ok n =>
        match pyAllContains n requiredNutrientFields with
        | .error e => .error e
        | .ok false => .error ("Missing required nutrient fields in meal item for " ++ day)
        | .ok true => .ok ()

/-- health_coach.py lines 153-169: the body of the per-day validation
loop, for one weekday, over the value of the `meals` key. -/
def checkDay (meals : Json) (day : String) : Except String Unit :=
  match pyContains meals day with
  | .error e => .error e
  | .ok false => .error ("Missing " ++ day ++ " in meal plan data")
  | .ok true =>
    match pyIndex meals day with
    | .error e => .error e
    | .ok dayMeals =>
      match dayMeals with
      | Json.arr xs =>
        if xs.length < 5 then .error ("Insufficient meals for " ++ day)
        else exceptForEach xs (checkMeal day)
      | _ => .error ("Insufficient meals for " ++ day)

/-- health_coach.py lines 146-169: the whole validation pass over a
parsed meal-plan payload. -/
def validateMealPlanData (data : Json) : Except String Unit :=
  match checkRequiredFields data with
  | .error e => .error e
  | .ok _ =>
    match pyIndex data "meals" with
    | .error e => .error e
    | .ok meals => exceptForEach weekdays (checkDay meals)

/-- The `MealPlan(...)` constructor call of health_coach.py lines
171-182, keeping the fields it passes.  The pydantic validators of
`models.MealPlan` can only reject further payloads, never accept more;
they are not needed by the claims settled here. -/
structure MealPlanOut where
  meals : Json
  meal_timing : Option Json
  hydration_guidelines : Option Json
  preparation_tips : Option Json
  storage_instructions : Option Json
  total_calories : Json
  total_protein : Json
  total_carbs : Json
  total_fat : Json
  total_fiber : Json

/-- health_coach.py lines 171-182. -/
def buildMealPlan (data : Json) : Except String MealPlanOut :=
  match pyIndex data "meals", pyIndex data "total_calories", pyIndex data "total_protein",
      pyIndex data "total_carbs", pyIndex data "total_fat", pyIndex data "total_fiber" with
  | .ok m, .ok c, .ok p, .ok cb, .ok f, .ok fb =>
    .ok { meals := m
          meal_timing := pyGet data "meal_timing"
          hydration_guidelines := pyGet data "hydration_guidelines"
          preparation_tips := pyGet data "preparation_tips"
          storage_instructions := pyGet data "storage_instructions"
          total_calories := c, total_protein := p, total_carbs := cb
          total_fat := f, total_fiber := fb }
  | _, _, _, _, _, _ => .error "KeyError"

/-- Validation followed by construction, for a payload that already
parsed (the body of the inner `try` of `generate_meal_plan` after
`json.loads`). -/
def mealPlanFromData (data : Json) : Except String MealPlanOut :=
  match validateMealPlanData data with
  | .error e => .error e
  | .ok _ => buildMealPlan data

/-- The exception `generate_meal_plan` raises when its inner `try` fails,
after the outer handler prepends its own text (health_coach.py lines
190 and 193). -/
def mealGenErrorMsg : String :=
  "Error generating meal plan: Failed to parse the meal plan response from the AI model"

/-- The inner `except` of `generate_meal_plan` (lines 186-190) swallows
the specific validation error, logs it, and raises the fixed parse
message, which the outer handler (lines 192-193) rewraps: every failure
surfaces as a `ValueError` carrying `mealGenErrorMsg`. -/
def generateMealPlanFromData (data : Json) : Except PyExn MealPlanOut :=
  match mealPlanFromData data with
  | .ok plan => .ok plan
  | .error _ => .error (PyExn.valueError mealGenErrorMsg)

/-! ## Workout-plan response validation (`HealthCoach.generate_workout_plan`) -/

/-- The list a string rest day is replaced with
(health_coach.py line 301): `[{"exercise": "Rest"}]`. -/
def restSentinel : Json :=
  Json.arr [Json.obj [("exercise", Json.str "Rest")]]

/-- health_coach.py lines 300-303, for one schedule entry: a string
equal (lower-cased) to "rest" becomes `restSentinel`, a list is kept,
anything else raises. -/
def normalizeDay (day : String) (v : Json) : Except String Json :=
  match v with
  | Json.str s =>
    if strLower s = "rest" then .ok restSentinel
    else .error ("Invalid exercise data for " ++ day)
  | Json.arr xs => .ok (Json.arr xs)
  | _ => .error ("Invalid exercise data for " ++ day)

/-- health_coach.py lines 299-303: the normalization loop over
`weekly_schedule.items()`, writing replacements back in place. -/
def normalizeSchedule : List (String × Json) → Except String (List (String × Json))
  | [] => .ok []
  | (day, v) :: rest =>
    match normalizeDay day v with
    | .error e => .error e
    | .ok v' =>
      match normalizeSchedule rest with
      | .error e => .error e
      | .ok rest' => .ok ((day, v') :: rest')

/-- `exercises[0].get('exercise', '').lower()`-style access
(health_coach.py lines 321 and 330): `.get` on a non-dict raises
`AttributeError`, as does `.lower()` on a non-string value; an absent
key defaults to the empty string. -/
def exerciseNameOf (e : Json) : Except String String :=
  match e with
  | Json.obj kvs =>
    match lookupLast kvs "exercise" with
    | none => .ok ""
    | some (Json.str s) => .ok s
    | some _ => .error "AttributeError: value has no attribute lower"
  | _ => .error "AttributeError: value has no attribute get"

/-- health_coach.py lines 325-331: validation of a single exercise entry
of a non-rest day. -/
def validateExercise (day : String) (e : Json) : Except String Unit :=
  match e with
  | Json.obj kvs =>
    if hasKeyB kvs "exercise" = false then .error ("Missing exercise name in " ++ day)
    else
      match lookupLast kvs "exercise" with
      | some (Json.str s) =>
        if strLower s ≠ "rest" ∧ ¬(hasKeyB kvs "sets" = true ∨ hasKeyB kvs "duration" = true) then
          .error ("Exercise must have either sets or duration in " ++ day)
        else .ok ()
      | some _ => .error "AttributeError: value has no attribute lower"
      | none => .error "KeyError"
  | _ => .error ("Invalid exercise format in " ++ day)

/-- health_coach.py lines 312-331: the per-weekday validation loop body,
over the (already normalized) `weekly_schedule` value.  A single-entry
day whose exercise name lower-cases to "rest" is skipped (line 321). -/
def checkWorkoutDay (sched : Json) (day : String) : Except String Unit :=
  match pyContains sched day with
  | .error e => .error e
  | .ok false => .error ("Missing " ++ day ++ " in workout schedule")
  | .ok true =>
    match pyIndex sched day with
    | .error e => .error e
    | .ok exs =>
      match exs with
      | Json.arr xs =>
        match xs with
        | [x] =>
          match exerciseNameOf x with
          | .error e => .error e
          | .ok s =>
            if strLower s = "rest" then .ok ()
            else exceptForEach [x] (validateExercise day)
        | _ => exceptForEach xs (validateExercise day)
      | _ => .error ("Invalid exercise data for " ++ day)

/-- The top-level keys required of a workout payload
(health_coach.py line 306). -/
def requiredWorkoutFields : List String :=
  ["weekly_schedule", "intensity_level", "estimated_calories_burn"]

/-- The `WorkoutPlan(...)` constructor call of health_coach.py lines
333-341 (pydantic validators of `models.WorkoutPlan` omitted; they can
only reject further payloads). -/
structure WorkoutPlanOut where
  weekly_schedule : Json
  intensity_level : Json
  estimated_calories_burn : Json
  warm_up : Option Json
  cool_down : Option Json
  safety_precautions : Option Json
  progression_tips : Option Json

/-- health_coach.py lines 333-341, over the mutated payload whose
`weekly_schedule` value has become `Json.obj kvs'`. -/
def buildWorkoutPlan (data : Json) (kvs' : List (String × Json)) :
    Except String WorkoutPlanOut :=
  match pyIndex data "intensity_level", pyIndex data "estimated_calories_burn" with
  | .ok il, .ok burn =>
    .ok { weekly_schedule := Json.obj kvs'
          intensity_level := il
          estimated_calories_burn := burn
          warm_up := pyGet data "warm_up"
          cool_down := pyGet data "cool_down"
          safety_precautions := pyGet data "safety_precautions"
          progression_tips := pyGet data "progression_tips" }
  | _, _ => .error "KeyError"

/-- health_coach.py lines 298-341: the body of the inner `try` of
`generate_workout_plan` after `json.loads`.  Line 299 indexes
`weekly_schedule` and iterates `.items()` before the required-fields
check of line 306, so a missing or non-dict `weekly_schedule` raises
first. -/
def workoutPlanFromData (data : Json) : Except String WorkoutPlanOut :=
  match pyIndex data "weekly_schedule" with
  | .error e => .error e
  | .ok schedVal =>
    match schedVal with
    | Json.obj kvs =>
      match normalizeSchedule kvs with
      | .error e => .error e
      | .ok kvs' =>
        match pyAllContains data requiredWorkoutFields with
        | .error e => .error e
        | .ok false => .error "Missing required fields in workout plan data"
        | .ok true =>
          match exceptForEach weekdays (checkWorkoutDay (Json.obj kvs')) with
          | .error e => .error e
          | .ok _ => buildWorkoutPlan data kvs'
    | _ => .error "AttributeError: value has no attribute items"

/-- The exception `generate_workout_plan` raises on any inner failure,
after the outer handler's rewrap (health_coach.py lines 349 and 352). -/
def workoutGenErrorMsg : String :=
  "Error generating workout plan: Failed to parse the workout plan response from the AI model"

/-- Inner-`except` swallowing and outer rewrap for the workout pipeline
(health_coach.py lines 345-352): every failure surfaces as a
`ValueError` carrying `workoutGenErrorMsg`. -/
def generateWorkoutPlanFromData (data : Json) : Except PyExn WorkoutPlanOut :=
  match workoutPlanFromData data with
  | .ok plan => .ok plan
  | .error _ => .error (PyExn.valueError workoutGenErrorMsg)

/-! ## `json.loads` and the brace-substring extraction

A executable model of `json.loads`: a recursive-descent JSON reader.
Simplifications relative to CPython's parser: an escape sequence
contributes its escaped character literally (so `\u…` digits stay as
text), and the `NaN`/`Infinity` extensions are not read — neither
affects any payload a claim quantifies over. -/

/-- The character `{` (written by code so that brace pairing in source
text stays balanced). -/
def lbrace : Char := Char.ofNat 123

/-- The character `}`. -/
def rbrace : Char := Char.ofNat 125

/-- JSON insignificant whitespace. -/
def isJsonWs (c : Char) : Bool :=
  c == ' ' || c == '\t' || c == '\n' || c == '\r'

/-- Drop leading JSON whitespace. -/
def skipWs : List Char → List Char
  | [] => []
  | c :: cs => if isJsonWs c then skipWs cs else c :: cs

/-- Read a JSON string body after the opening quote, up to and past the
closing quote. -/
def parseStringBody : List Char → Option (List Char × List Char)
  | [] => none
  | c :: cs =>
    if c = '"' then some ([], cs)
    else if c = '\\' then
      match cs with
      | [] => none
      | d :: cs' =>
        match parseStringBody cs' with
        | some (s, r) => some (d :: s, r)
        | none => none
    else
      match parseStringBody cs with
      | some (s, r) => some (c :: s, r)
      | none => none

/-- Decimal digit test. -/
def isDigitB (c : Char) : Bool := '0' ≤ c && c ≤ '9'

/-- Numeric value of a run of digits. -/
def digitsToNat (ds : List Char) : ℕ :=
  ds.foldl (fun a c => a * 10 + (c.toNat - 48)) 0

/-- Split off the maximal leading run of decimal digits. -/
def takeDigits : List Char → List Char × List Char
  | [] => ([], [])
  | c :: t =>
    if isDigitB c then
      match takeDigits t with
      | (ds, r) => (c :: ds, r)
    else ([], c :: t)

/-- The fraction part of a JSON number: a dot followed by at least one
digit; anything else contributes zero and is left unread. -/
def parseFracPart (cs : List Char) : ℚ × List Char :=
  match cs with
  | [] => (0, [])
  | c :: t =>
    if c = '.' then
      let td := takeDigits t
      if td.1.isEmpty then (0, c :: t)
      else ((digitsToNat td.1 : ℚ) / (10 : ℚ) ^ td.1.length, td.2)
    else (0, c :: t)

/-- The digits of an exponent after the `e`/`E` and optional sign;
`orig` is restored when no digit follows. -/
def expDigits (u orig : List Char) (neg : Bool) : ℤ × List Char :=
  let td := takeDigits u
  if td.1.isEmpty then (0, orig)
  else (if neg then -(digitsToNat td.1 : ℤ) else (digitsToNat td.1 : ℤ), td.2)

/-- The exponent part of a JSON number; a malformed exponent contributes
zero and is left unread. -/
def parseExpPart (cs : List Char) : ℤ × List Char :=
  match cs with
  | [] => (0, [])
  | c :: t =>
    if c = 'e' ∨ c = 'E' then
      match t with
      | [] => (0, c :: t)
      | d :: u =>
        if d = '+' then expDigits u (c :: t) false
        else if d = '-' then expDigits u (c :: t) true
        else expDigits (d :: u) (c :: t) false
    else (0, c :: t)

/-- An unsigned JSON number.  Mirrors the CPython number grammar
`(0|[1-9][0-9]*)(\.[0-9]+)?([eE][-+]?[0-9]+)?`: a leading-zero run
consumes only the single `0` and leaves the rest unread, so the overall
parse fails on the leftover just as CPython's does. -/
def parseUnsignedNum (cs : List Char) : Option (ℚ × List Char) :=
  let td := takeDigits cs
  if td.1.isEmpty then none
  else if 2 ≤ td.1.length ∧ td.1.headD ' ' = '0' then
    some (0, td.1.tail ++ td.2)
  else
    let fr := parseFracPart td.2
    let ex := parseExpPart fr.2
    some (((digitsToNat td.1 : ℚ) + fr.1) * (10 : ℚ) ^ ex.1, ex.2)

/-- A JSON number with its optional leading minus sign. -/
def parseNum (cs : List Char) : Option (Json × List Char) :=
  match cs with
  | [] => none
  | c :: t =>
    if c = '-' then
      match parseUnsignedNum t with
      | none => none
      | some (q, r) => some (Json.num (-q), r)
    else
      match parseUnsignedNum (c :: t) with
      | none => none
      | some (q, r) => some (Json.num q, r)

mutual

/-- Read one JSON value (fuel-bounded recursion; the fuel only bounds
nesting depth and `Json.parse` supplies enough of it). -/
def parseVal : ℕ → List Char → Option (Json × List Char)
  | 0, _ => none
  | Nat.succ fuel, cs =>
    match skipWs cs with
    | [] => none
    | c :: rest =>
      if c = lbrace then
        match skipWs rest with
        | [] => none
        | d :: rest2 =>
          if d = rbrace then some (Json.obj [], rest2)
          else
            match parseMembers fuel (d :: rest2) with
            | some (kvs, r) => some (Json.obj kvs, r)
            | none => none
      else if c = '[' then
        match skipWs rest with
        | [] => none
        | d :: rest2 =>
          if d = ']' then some (Json.arr [], rest2)
          else
            match parseElems fuel (d :: rest2) with
            | some (xs, r) => some (Json.arr xs, r)
            | none => none
      else if c = '"' then
        match parseStringBody rest with
        | some (s, r) => some (Json.str ⟨s⟩, r)
        | none => none
      else if leadsWith ['t', 'r', 'u', 'e'] (c :: rest) then
        some (Json.bool true, rest.drop 3)
      else if leadsWith ['f', 'a', 'l', 's', 'e'] (c :: rest) then
        some (Json.bool false, rest.drop 4)
      else if leadsWith ['n', 'u', 'l', 'l'] (c :: rest) then
        some (Json.null, rest.drop 3)
      else parseNum (c :: rest)

/-- Read the members of an object after its opening brace (at least one
member; the empty object is read by `parseVal`). -/
def parseMembers : ℕ → List Char → Option (List (String × Json) × List Char)
  | 0, _ => none
  | Nat.succ fuel, cs =>
    match skipWs cs with
    | [] => none
    | c :: rest =>
      if c = '"' then
        match parseStringBody rest with
        | none => none
        | some (k, r1) =>
          match skipWs r1 with
          | [] => none
          | c2 :: r2 =>
            if c2 = ':' then
              match parseVal fuel r2 with
              | none => none
              | some (v, r3) =>
                match skipWs r3 with
                | [] => none
                | c3 :: r4 =>
                  if c3 = ',' then
                    match parseMembers fuel r4 with
                    | some (kvs, r) => some ((⟨k⟩, v) :: kvs, r)
                    | none => none
                  else if c3 = rbrace then some ([(⟨k⟩, v)], r4)
                  else none
            else none
      else none

/-- Read the elements of an array after its opening bracket (at least
one element; the empty array is read by `parseVal`). -/
def parseElems : ℕ → List Char → Option (List Json × List Char)
  | 0, _ => none
  | Nat.succ fuel, cs =>
    match parseVal fuel cs with
    | none => none
    | some (v, r1) =>
      match skipWs r1 with
      | [] => none
      | c :: r2 =>
        if c = ',' then
          match parseElems fuel r2 with
          | some (xs, r) => some (v :: xs, r)
          | none => none
        else if c = ']' then some ([v], r2)
        else none

end

/-- `json.loads`: read one value and require only whitespace after it. -/
def Json.parse (cs : List Char) : Option Json :=
  match parseVal (2 * cs.length + 2) cs with
  | some (v, rest) => if skipWs rest = [] then some v else none
  | none => none

/-- Index of the first occurrence of `c` (`str.find`, `-1` modelled as
`none`). -/
def firstIdx (c : Char) : List Char → Option ℕ
  | [] => none
  | x :: xs =>
    if x = c then some 0
    else (firstIdx c xs).map (· + 1)

/-- Index of the last occurrence of `c` (`str.rfind`, `-1` modelled as
`none`). -/
def lastIdx (c : Char) : List Char → Option ℕ
  | [] => none
  | x :: xs =>
    match lastIdx c xs with
    | some k => some (k + 1)
    | none => if x = c then some 0 else none

/-- The guard of health_coach.py lines 140-142 / 292-294:
`json_start >= 0 and json_end > json_start` with
`json_start = text.find('{')` and `json_end = text.rfind('}') + 1`. -/
def braceSliceCond (cs : List Char) : Bool :=
  match firstIdx lbrace cs, lastIdx rbrace cs with
  | some i, some j => decide (i ≤ j)
  | _, _ => false

/-- health_coach.py lines 140-143 / 292-295: slice out
`text[json_start:json_end]` when the guard holds, otherwise keep the
raw text. -/
def extractCandidate (cs : List Char) : List Char :=
  match firstIdx lbrace cs, lastIdx rbrace cs with
  | some i, some j => if i ≤ j then (cs.drop i).take (j + 1 - i) else cs
  | _, _ => cs

/-- `generate_meal_plan` from the LLM's textual response on: the
`isinstance(..., dict)` test of line 138 is false for a string, so the
brace extraction and `json.loads` of lines 139-144 run, then validation
and construction; every failure is rewrapped into the fixed
`ValueError`. -/
def generateMealPlanModel (text : String) : Except PyExn MealPlanOut :=
  match Json.parse (extractCandidate text.data) with
  | none => .error (PyExn.valueError mealGenErrorMsg)
  | some data => generateMealPlanFromData data

/-- `generate_workout_plan` from the LLM's textual response on
(health_coach.py lines 288-352), analogously. -/
def generateWorkoutPlanModel (text : String) : Except PyExn WorkoutPlanOut :=
  match Json.parse (extractCandidate text.data) with
  | none => .error (PyExn.valueError workoutGenErrorMsg)
  | some data => generateWorkoutPlanFromData data

/-! ## HTTP endpoints (`main.py`) -/

/-- The `POST /meal-plan` handler (main.py lines 99-116), as a function
of the (pydantic-accepted) profile and of the LLM's textual response:
the in-handler positivity check raises `ValueError` (caught as 400); a
`ValueError` from `generate_meal_plan` is caught by the same clause
(400); only a non-`ValueError` exception reaches the 500 clause. -/
def mealPlanEndpoint (p : ProfileData) (llmText : String) : ℕ × String :=
  if p.age ≤ 0 ∨ p.weight ≤ 0 ∨ p.height ≤ 0 then
    (400, "Age, weight, and height must be positive numbers")
  else
    match generateMealPlanModel llmText with
    | .ok _ => (200, "meal plan")
    | .error (PyExn.valueError m) => (400, m)
    | .error (PyExn.otherError _) => (500, "Internal server error while generating meal plan")

/-- The methods defined on `class HealthCoach` (health_coach.py).  No
`analyze_nutritional_content` is among them. -/
def healthCoachMethods : List String :=
  ["__init__", "_is_rest_day", "generate_meal_plan", "generate_workout_plan",
   "get_nutrition_goals", "_get_supplement_recommendations", "_get_food_nutrients",
   "_calculate_nutrition_goals", "_create_workout_plan_prompt",
   "_parse_meal_plan_response", "_parse_workout_plan_response",
   "_estimate_prep_time", "_calculate_difficulty", "_identify_muscle_groups",
   "_get_required_equipment", "_calculate_exercise_difficulty",
   "_get_exercise_tutorial"]

/-- The `POST /analyze-meal` handler (main.py lines 118-133): an empty
or non-dict body raises `ValueError` (400); otherwise the handler calls
`health_coach.analyze_nutritional_content(meal_data)`, and Python
attribute lookup on the instance falls back to the class's method
table — a missing name raises `AttributeError`, which is not a
`ValueError`, so the generic `except` answers 500. -/
def analyzeMealEndpoint (mealData : Json) : ℕ × String :=
  match mealData with
  | Json.obj kvs =>
    if kvs.isEmpty then (400, "Invalid meal data format")
    else if healthCoachMethods.contains "analyze_nutritional_content" then
      (200, "nutritional analysis")
    else (500, "Internal server error while analyzing meal")
  | _ => (400, "Invalid meal data format")

/-! ## Concrete payloads used by counterexamples and witnesses -/

/-- A minimal valid meal item. -/
def mkMeal : Json := Json.obj [("item", Json.str "x"), ("portion", Json.str "y")]

/-- A day with the minimum five meal items. -/
def dayList : Json := Json.arr (List.replicate 5 mkMeal)

/-- Six valid days, `sunday` missing. -/
def sixDaysKvs : List (String × Json) :=
  (weekdays.take 6).map (fun d => (d, dayList))

/-- A meal-plan payload with every required top-level field whose
`meals` dict lacks `sunday`. -/
def payloadC5 : Json :=
  Json.obj [("meals", Json.obj sixDaysKvs), ("total_calories", Json.num 1),
    ("total_protein", Json.num 1), ("total_carbs", Json.num 1),
    ("total_fat", Json.num 1), ("total_fiber", Json.num 1)]

/-- A nutrients object missing `fiber`. -/
def badNutrients : Json :=
  Json.obj [("calories", Json.num 1), ("protein", Json.num 1),
    ("carbs", Json.num 1), ("fat", Json.num 1)]

/-- A meal item whose nutrients lack `fiber`. -/
def badMeal : Json :=
  Json.obj [("item", Json.str "x"), ("portion", Json.str "y"), ("nutrients", badNutrients)]

/-- Monday's meal list beginning with the defective item. -/
def mondayBadList : List Json := badMeal :: List.replicate 4 mkMeal

/-- Seven days, all valid except monday's first meal item. -/
def sevenDaysBadKvs : List (String × Json) :=
  ("monday", Json.arr mondayBadList) :: (weekdays.drop 1).map (fun d => (d, dayList))

/-- A meal-plan payload whose only defect is a `nutrients` object missing
`fiber` in monday's first meal item. -/
def payloadC7 : Json :=
  Json.obj [("meals", Json.obj sevenDaysBadKvs), ("total_calories", Json.num 1),
    ("total_protein", Json.num 1), ("total_carbs", Json.num 1),
    ("total_fat", Json.num 1), ("total_fiber", Json.num 1)]

/-! ## Helper lemmas -/

theorem pyRound_lt_half (q : ℚ) (n : ℤ) (h1 : (n : ℚ) ≤ q) (h2 : q - n < 1/2) :
    pyRound q = n := by
  have hf : ⌊q⌋ = n := by
    rw [Int.floor_eq_iff]
    exact ⟨h1, by linarith⟩
  simp only [pyRound, hf]
  rw [if_pos h2]

theorem pyRound_gt_half (q : ℚ) (n : ℤ) (h1 : (n : ℚ) ≤ q) (h2 : (1:ℚ)/2 < q - n)
    (h3 : q < n + 1) : pyRound q = n + 1 := by
  have hf : ⌊q⌋ = n := by
    rw [Int.floor_eq_iff]
    exact ⟨h1, by linarith⟩
  simp only [pyRound, hf]
  rw [if_neg (by linarith), if_pos h2]

theorem exceptForEach_ok {α : Type} (l : List α) (f : α → Except String Unit)
    (h : exceptForEach l f = .ok ()) : ∀ x ∈ l, f x = .ok () := by
  induction l with
  | nil => intro x hx; cases hx
  | cons y ys ih =>
    intro x hx
    unfold exceptForEach at h
    cases hf : f y with
    | error e => rw [hf] at h; cases h
    | ok u =>
      rw [hf] at h
      cases hx with
      | head => cases u; exact hf
      | tail _ hmem => exact ih h x hmem

theorem exceptForEach_firstError {α : Type} (l1 l2 : List α) (x : α)
    (f : α → Except String Unit) (e : String)
    (hpre : ∀ y ∈ l1, f y = .ok ()) (hx : f x = .error e) :
    exceptForEach (l1 ++ x :: l2) f = .error e := by
  induction l1 with
  | nil => simp only [List.nil_append]; unfold exceptForEach; rw [hx]
  | cons y ys ih =>
    have hy : f y = .ok () := hpre y (List.mem_cons_self y ys)
    simp only [List.cons_append]
    unfold exceptForEach
    rw [hy]
    exact ih (fun z hz => hpre z (List.mem_cons_of_mem y hz))

theorem pyIndex_ok_obj (d : Json) (k : String) (v : Json)
    (h : pyIndex d k = .ok v) : ∃ kvs, d = Json.obj kvs := by
  cases d <;> simp_all [pyIndex]

theorem mealPlan_wrap_error (data : Json) (e : String)
    (h : validateMealPlanData data = .error e) :
    generateMealPlanFromData data = .error (PyExn.valueError mealGenErrorMsg) := by
  simp [generateMealPlanFromData, mealPlanFromData, h]

/-! ## Claim theorems -/

/-- Claim C1: for weight 70, height 175, age 30, activity level
"moderate" and no goals, `get_nutrition_goals` returns calories 2548,
protein 191, carbs 287, fat 71, fiber 35. -/
theorem c1_nutrition_goals_example :
    get_nutrition_goals ⟨30, 70, 175, [], "moderate"⟩ =
      ⟨2548, 191, 287, 71, 35⟩ := by
  have hm : activityMultipliers "moderate" = 1.55 := rfl
  simp only [get_nutrition_goals, hm]
  norm_num
  refine ⟨?_, ?_, ?_, ?_, ?_⟩
  · exact pyRound_gt_half _ 2547 (by norm_num) (by norm_num) (by norm_num)
  · exact pyRound_lt_half _ 191 (by norm_num) (by norm_num)
  · exact pyRound_gt_half _ 286 (by norm_num) (by norm_num) (by norm_num)
  · exact pyRound_gt_half _ 70 (by norm_num) (by norm_num) (by norm_num)
  · exact pyRound_lt_half _ 35 (by norm_num) (by norm_num)

/-- Claim C2: the TDEE multiplier used by `get_nutrition_goals` equals
the fixed table value on the five known activity levels, falls back to
1.55 on any other string, and is the factor applied to the BMR (shown
for a goal-free profile, where the calorie adjustment is 0). -/
theorem c2_activity_multiplier_table (s : String) (p : ProfileData)
    (h1 : s ≠ "sedentary") (h2 : s ≠ "light") (h3 : s ≠ "moderate")
    (h4 : s ≠ "active") (h5 : s ≠ "very_active") (hp : p.goals = []) :
    activityMultipliers "sedentary" = 1.2 ∧
    activityMultipliers "light" = 1.375 ∧
    activityMultipliers "moderate" = 1.55 ∧
    activityMultipliers "active" = 1.725 ∧
    activityMultipliers "very_active" = 1.9 ∧
    activityMultipliers s = 1.55 ∧
    (get_nutrition_goals p).calories =
      pyRound ((10 * p.weight + 6.25 * p.height - 5 * (p.age : ℚ)) *
        activityMultipliers p.activity_level) := by
  refine ⟨rfl, rfl, rfl, rfl, rfl, ?_, ?_⟩
  · simp [activityMultipliers, h1, h2, h3, h4, h5]
  · simp [get_nutrition_goals, hp]

/-- Witness for C2 at the unrecognized level "other" and a concrete
goal-free profile. -/
theorem c2_witness :
    activityMultipliers "sedentary" = 1.2 ∧
    activityMultipliers "light" = 1.375 ∧
    activityMultipliers "moderate" = 1.55 ∧
    activityMultipliers "active" = 1.725 ∧
    activityMultipliers "very_active" = 1.9 ∧
    activityMultipliers "other" = 1.55 ∧
    (get_nutrition_goals ⟨30, 70, 175, [], "moderate"⟩).calories =
      pyRound ((10 * (70:ℚ) + 6.25 * 175 - 5 * ((30:ℤ) : ℚ)) *
        activityMultipliers "moderate") :=
  c2_activity_multiplier_table "other" ⟨30, 70, 175, [], "moderate"⟩
    (by decide) (by decide) (by decide) (by decide) (by decide) rfl

/-- Claim C3 counterexample: at a profile carrying both goals, the code's
output differs from the claimed weight-loss-ratio output, because the
ratio branch of `get_nutrition_goals` tests `muscle_gain` first (the
protein field is 179 = round((TDEE−500)·0.35/4), not
205 = round((TDEE−500)·0.40/4)). -/
theorem c3_counterexample :
    get_nutrition_goals ⟨30, 70, 175, ["weight_loss", "muscle_gain"], "moderate"⟩ ≠
      claimedNutritionGoals ⟨30, 70, 175, ["weight_loss", "muscle_gain"], "moderate"⟩ := by
  have hm : activityMultipliers "moderate" = 1.55 := rfl
  have hg : (get_nutrition_goals ⟨30, 70, 175, ["weight_loss", "muscle_gain"], "moderate"⟩).protein = 179 := by
    simp only [get_nutrition_goals, hm]
    norm_num
    exact pyRound_lt_half _ 179 (by norm_num) (by norm_num)
  have hc : (claimedNutritionGoals ⟨30, 70, 175, ["weight_loss", "muscle_gain"], "moderate"⟩).protein = 205 := by
    simp only [claimedNutritionGoals, hm]
    norm_num
    exact pyRound_gt_half _ 204 (by norm_num) (by norm_num) (by norm_num)
  intro heq
  rw [heq, hc] at hg
  exact absurd hg (by decide)

/-- Claim C3 amended: when both "weight_loss" and "muscle_gain" are
present, the calorie adjustment is the weight-loss one (−500, since the
adjustment branch tests weight_loss first) but the macro ratios are the
muscle-gain ones (0.35 protein / 0.45 carb / 0.20 fat, since the ratio
branch tests muscle_gain first); the function is pure, so identical
inputs give identical outputs. -/
theorem c3_amended (p : ProfileData)
    (hwl : "weight_loss" ∈ p.goals) (hmg : "muscle_gain" ∈ p.goals) :
    get_nutrition_goals p =
      { calories := pyRound (tdeeOf p - 500)
        protein := pyRound ((tdeeOf p - 500) * 0.35 / 4)
        carbs := pyRound ((tdeeOf p - 500) * 0.45 / 4)
        fat := pyRound ((tdeeOf p - 500) * 0.20 / 9)
        fiber := pyRound (p.weight * 0.5) } ∧
    get_nutrition_goals p = get_nutrition_goals p := by
  constructor
  · simp only [get_nutrition_goals, tdeeOf, hwl, hmg, if_true, if_pos, sub_eq_add_neg]
  · rfl

/-- Witness for C3 at a concrete profile carrying both goals. -/
theorem c3_witness :
    get_nutrition_goals ⟨30, 70, 175, ["weight_loss", "muscle_gain"], "moderate"⟩ =
      { calories := pyRound (tdeeOf ⟨30, 70, 175, ["weight_loss", "muscle_gain"], "moderate"⟩ - 500)
        protein := pyRound ((tdeeOf ⟨30, 70, 175, ["weight_loss", "muscle_gain"], "moderate"⟩ - 500) * 0.35 / 4)
        carbs := pyRound ((tdeeOf ⟨30, 70, 175, ["weight_loss", "muscle_gain"], "moderate"⟩ - 500) * 0.45 / 4)
        fat := pyRound ((tdeeOf ⟨30, 70, 175, ["weight_loss", "muscle_gain"], "moderate"⟩ - 500) * 0.20 / 9)
        fiber := pyRound ((70 : ℚ) * 0.5) } ∧
    get_nutrition_goals ⟨30, 70, 175, ["weight_loss", "muscle_gain"], "moderate"⟩ =
      get_nutrition_goals ⟨30, 70, 175, ["weight_loss", "muscle_gain"], "moderate"⟩ :=
  c3_amended ⟨30, 70, 175, ["weight_loss", "muscle_gain"], "moderate"⟩
    (by decide) (by decide)

/-- Claim C10: a profile accepted by `models.HealthInput` has one of the
four pattern levels, is never "sedentary", and its activity multiplier is
never the sedentary 1.2; a profile with level "sedentary" is always
rejected at the boundary. -/
theorem c10_sedentary_unreachable (age : ℤ) (w h : ℚ) (goals : List String)
    (level : String) (hacc : healthInputAccepts age w h goals level = true) :
    (level = "light" ∨ level = "moderate" ∨ level = "active" ∨ level = "very_active") ∧
    level ≠ "sedentary" ∧
    activityMultipliers level ≠ 1.2 ∧
    (∀ (age' : ℤ) (w' h' : ℚ) (goals' : List String),
      healthInputAccepts age' w' h' goals' "sedentary" = false) := by
  have hv : validActivityLevel level = true := by
    simp only [healthInputAccepts, Bool.and_eq_true] at hacc
    exact hacc.2
  have hcases : level = "light" ∨ level = "moderate" ∨ level = "active" ∨
      level = "very_active" := by
    simp only [validActivityLevel, Bool.or_eq_true, beq_iff_eq] at hv
    tauto
  refine ⟨hcases, ?_, ?_, ?_⟩
  · rcases hcases with h' | h' | h' | h' <;> subst h' <;> decide
  · have hmul : activityMultipliers level = 1.375 ∨ activityMultipliers level = 1.55 ∨
        activityMultipliers level = 1.725 ∨ activityMultipliers level = 1.9 := by
      rcases hcases with h' | h' | h' | h' <;> subst h'
      · exact Or.inl rfl
      · exact Or.inr (Or.inl rfl)
      · exact Or.inr (Or.inr (Or.inl rfl))
      · exact Or.inr (Or.inr (Or.inr rfl))
    rcases hmul with h' | h' | h' | h' <;> rw [h'] <;> norm_num
  · intro age' w' h' goals'
    simp [healthInputAccepts, validActivityLevel]

/-- Witness for C10 at a concrete accepted profile. -/
theorem c10_witness :
    ((("moderate" : String) = "light" ∨ ("moderate" : String) = "moderate" ∨
      ("moderate" : String) = "active" ∨ ("moderate" : String) = "very_active") ∧
    ("moderate" : String) ≠ "sedentary" ∧
    activityMultipliers "moderate" ≠ 1.2 ∧
    (∀ (age' : ℤ) (w' h' : ℚ) (goals' : List String),
      healthInputAccepts age' w' h' goals' "sedentary" = false)) :=
  c10_sedentary_unreachable 30 70 175 ["weight_loss"] "moderate"
    (by simp [healthInputAccepts, validActivityLevel]; norm_num)

/-- Claim C8 (code bug): at a valid profile whose generation fails (the
LLM reply parses to nothing), `/meal-plan` answers 400, not the claimed
500, because `generate_meal_plan` wraps every failure in a `ValueError`
and the handler's `except ValueError` clause maps those to 400; the
in-handler profile check does answer 400. -/
theorem c8_meal_plan_endpoint_status :
    mealPlanEndpoint ⟨30, 70, 175, ["weight_loss"], "moderate"⟩
        "I cannot produce JSON today" = (400, mealGenErrorMsg) ∧
    (mealPlanEndpoint ⟨30, 70, 175, ["weight_loss"], "moderate"⟩
        "I cannot produce JSON today").1 ≠ 500 ∧
    mealPlanEndpoint ⟨0, 70, 175, ["weight_loss"], "moderate"⟩ "any reply" =
      (400, "Age, weight, and height must be positive numbers") := by
  have hparse : Json.parse (extractCandidate ("I cannot produce JSON today").data) = none := rfl
  have hgen : generateMealPlanModel "I cannot produce JSON today" =
      .error (PyExn.valueError mealGenErrorMsg) := by
    simp only [generateMealPlanModel, hparse]
  have hpos : ¬((30 : ℤ) ≤ 0 ∨ (70 : ℚ) ≤ 0 ∨ (175 : ℚ) ≤ 0) := by
    push_neg
    norm_num
  have h1 : mealPlanEndpoint ⟨30, 70, 175, ["weight_loss"], "moderate"⟩
      "I cannot produce JSON today" = (400, mealGenErrorMsg) := by
    simp only [mealPlanEndpoint]
    rw [if_neg hpos, hgen]
  refine ⟨h1, ?_, ?_⟩
  · rw [h1]
    decide
  · simp only [mealPlanEndpoint]
    rw [if_pos (Or.inl le_rfl)]

/-- Claim C9 (code bug): at a non-empty `{items: [...]}` body,
`/analyze-meal` answers 500, not the claimed 200: the handler calls
`health_coach.analyze_nutritional_content`, a name absent from
`HealthCoach`'s method table, so an `AttributeError` reaches the generic
`except` clause. -/
theorem c9_analyze_meal_returns_500 :
    analyzeMealEndpoint (Json.obj [("items", Json.arr [Json.str "apple"])]) =
      (500, "Internal server error while analyzing meal") ∧
    healthCoachMethods.contains "analyze_nutritional_content" = false :=
  ⟨rfl, rfl⟩

/-- Claim C5 counterexample: a payload lacking only `sunday` makes
validation fail with an internal message naming the day, but the error
`generate_meal_plan` reports to its caller is the fixed generic parse
message, which does not mention "sunday". -/
theorem c5_counterexample :
    validateMealPlanData payloadC5 = .error "Missing sunday in meal plan data" ∧
    generateMealPlanFromData payloadC5 = .error (PyExn.valueError mealGenErrorMsg) ∧
    subStr "sunday".data mealGenErrorMsg.data = false :=
  ⟨rfl, rfl, rfl⟩

/-- Claim C5 amended: a parsed meal-plan payload whose `meals` dict lacks
a weekday never validates; when the missing day is the first per-day
failure (top-level fields present, earlier days pass), the internal
validation error is exactly "Missing (day) in meal plan data" — but
`generate_meal_plan` reports only the generic `ValueError`
`mealGenErrorMsg`, with the day name going to the log alone. -/
theorem c5_amended :
    (∀ (data : Json) (mkvs : List (String × Json)) (d : String),
      pyIndex data "meals" = .ok (Json.obj mkvs) → d ∈ weekdays →
      hasKeyB mkvs d = false →
      validateMealPlanData data ≠ .ok ()) ∧
    (∀ (data meals : Json) (pre post : List String) (d : String),
      weekdays = pre ++ d :: post →
      checkRequiredFields data = .ok () →
      pyIndex data "meals" = .ok meals →
      (∀ d' ∈ pre, checkDay meals d' = .ok ()) →
      pyContains meals d = .ok false →
      validateMealPlanData data = .error ("Missing " ++ d ++ " in meal plan data") ∧
      generateMealPlanFromData data = .error (PyExn.valueError mealGenErrorMsg)) := by
  constructor
  · intro data mkvs d hmeals hd hkey hok
    unfold validateMealPlanData at hok
    cases hcf : checkRequiredFields data with
    | error e => rw [hcf] at hok; cases hok
    | ok u =>
      cases u
      rw [hcf, hmeals] at hok
      have hday := exceptForEach_ok _ _ hok d hd
      simp [checkDay, pyContains, hkey] at hday
  · intro data meals pre post d hsplit hcf hmeals hpre hcont
    have hday : checkDay meals d = .error ("Missing " ++ d ++ " in meal plan data") := by
      simp [checkDay, hcont]
    have hloop : exceptForEach weekdays (checkDay meals) =
        .error ("Missing " ++ d ++ " in meal plan data") := by
      rw [hsplit]
      exact exceptForEach_firstError pre post d _ _ hpre hday
    have hval : validateMealPlanData data =
        .error ("Missing " ++ d ++ " in meal plan data") := by
      unfold validateMealPlanData
      rw [hcf, hmeals]
      exact hloop
    exact ⟨hval, mealPlan_wrap_error data _ hval⟩

/-- Witness for C5 at the concrete `payloadC5` (missing `sunday`), with
`pre` the six earlier weekdays. -/
theorem c5_witness :
    validateMealPlanData payloadC5 ≠ .ok () ∧
    (validateMealPlanData payloadC5 = .error ("Missing " ++ "sunday" ++ " in meal plan data") ∧
      generateMealPlanFromData payloadC5 = .error (PyExn.valueError mealGenErrorMsg)) := by
  constructor
  · exact c5_amended.1 payloadC5 sixDaysKvs "sunday" rfl (by decide) rfl
  · exact c5_amended.2 payloadC5 (Json.obj sixDaysKvs)
      ["monday", "tuesday", "wednesday", "thursday", "friday", "saturday"] [] "sunday"
      rfl rfl rfl (by intro d' hd'; fin_cases hd' <;> rfl) rfl

/-- Claim C6: in the workout pipeline, a schedule entry whose value is a
string lower-casing to "rest" is replaced (in place, same key) by the
sentinel `[{"exercise": "Rest"}]`, and the per-day validation loop skips
exercise validation for a day whose value is that sentinel, accepting it
although it has neither sets nor duration. -/
theorem c6_rest_day_normalized_and_skipped :
    (∀ (kvs kvs' : List (String × Json)), normalizeSchedule kvs = .ok kvs' →
      ∀ (i : ℕ) (hi : i < kvs.length) (s : String),
        (kvs.get ⟨i, hi⟩).2 = Json.str s → strLower s = "rest" →
        ∃ hi' : i < kvs'.length,
          kvs'.get ⟨i, hi'⟩ = ((kvs.get ⟨i, hi⟩).1, restSentinel)) ∧
    (∀ (sched : Json) (day : String),
      pyContains sched day = .ok true → pyIndex sched day = .ok restSentinel →
      checkWorkoutDay sched day = .ok ()) := by
  constructor
  · intro kvs
    induction kvs with
    | nil => intro kvs' _ i hi; cases hi
    | cons hd tl ih =>
      intro kvs' hnorm i hi s hstr hrest
      obtain ⟨day, v⟩ := hd
      unfold normalizeSchedule at hnorm
      cases hnv : normalizeDay day v with
      | error e => rw [hnv] at hnorm; cases hnorm
      | ok v' =>
        rw [hnv] at hnorm
        cases hrec : normalizeSchedule tl with
        | error e => rw [hrec] at hnorm; cases hnorm
        | ok tl' =>
          rw [hrec] at hnorm
          cases hnorm
          cases i with
          | zero =>
            have hv : v = Json.str s := hstr
            subst hv
            have : normalizeDay day (Json.str s) = .ok restSentinel := by
              simp [normalizeDay, hrest]
            rw [this] at hnv
            cases hnv
            exact ⟨Nat.succ_pos _, rfl⟩
          | succ n =>
            have hn : n < tl.length := Nat.lt_of_succ_lt_succ hi
            obtain ⟨hi', hget⟩ := ih tl' hrec n hn s hstr hrest
            exact ⟨Nat.succ_lt_succ hi', hget⟩
  · intro sched day h1 h2
    simp only [checkWorkoutDay, h1, h2, restSentinel]
    rfl

/-- Witness for C6: a one-entry schedule with value "REST" normalizes to
the sentinel, and a schedule mapping a day to the sentinel passes the
per-day validation. -/
theorem c6_witness :
    (∃ hi' : 0 < [("monday", restSentinel)].length,
      [("monday", restSentinel)].get ⟨0, hi'⟩ = ("monday", restSentinel)) ∧
    checkWorkoutDay (Json.obj [("sunday", restSentinel)]) "sunday" = .ok () := by
  constructor
  · exact c6_rest_day_normalized_and_skipped.1
      [("monday", Json.str "REST")] [("monday", restSentinel)] rfl 0 (by decide) "REST" rfl rfl
  · exact c6_rest_day_normalized_and_skipped.2 (Json.obj [("sunday", restSentinel)]) "sunday" rfl rfl

/-- Claim C7 counterexample: a payload whose only defect is a monday meal
item with a `nutrients` object missing `fiber` fails validation with a
message that names the day but not the missing field, and
`generate_meal_plan` reports only the generic parse message. -/
theorem c7_counterexample :
    validateMealPlanData payloadC7 =
      .error "Missing required nutrient fields in meal item for monday" ∧
    subStr "fiber".data "Missing required nutrient fields in meal item for monday".data = false ∧
    generateMealPlanFromData payloadC7 = .error (PyExn.valueError mealGenErrorMsg) :=
  ⟨rfl, rfl, rfl⟩

/-- Claim C7 amended: a parsed payload containing a meal item whose
`nutrients` object lacks any of the five macro fields never validates;
the check that detects it raises exactly "Missing required nutrient
fields in meal item for (day)" — naming the day but not which field was
missing — and the error `generate_meal_plan` raises is the generic
`mealGenErrorMsg`. -/
theorem c7_amended :
    (∀ (data meals : Json) (d : String) (xs : List Json) (meal n : Json),
      pyIndex data "meals" = .ok meals → d ∈ weekdays →
      pyContains meals d = .ok true → pyIndex meals d = .ok (Json.arr xs) →
      meal ∈ xs →
      pyAllContains meal ["item", "portion"] = .ok true →
      pyContains meal "nutrients" = .ok true →
      pyIndex meal "nutrients" = .ok n →
      pyAllContains n requiredNutrientFields = .ok false →
      validateMealPlanData data ≠ .ok ()) ∧
    (∀ (d : String) (meal n : Json),
      pyAllContains meal ["item", "portion"] = .ok true →
      pyContains meal "nutrients" = .ok true →
      pyIndex meal "nutrients" = .ok n →
      pyAllContains n requiredNutrientFields = .ok false →
      checkMeal d meal =
        .error ("Missing required nutrient fields in meal item for " ++ d)) ∧
    (∀ (data : Json) (e : String), validateMealPlanData data = .error e →
      generateMealPlanFromData data = .error (PyExn.valueError mealGenErrorMsg)) := by
  have hmeal : ∀ (d : String) (meal n : Json),
      pyAllContains meal ["item", "portion"] = .ok true →
      pyContains meal "nutrients" = .ok true →
      pyIndex meal "nutrients" = .ok n →
      pyAllContains n requiredNutrientFields = .ok false →
      checkMeal d meal =
        .error ("Missing required nutrient fields in meal item for " ++ d) := by
    intro d meal n h1 h2 h3 h4
    simp [checkMeal, h1, h2, h3, h4]
  refine ⟨?_, hmeal, ?_⟩
  · intro data meals d xs meal n hmeals hd hcont harr hmem hip hnut hidx hmiss hok
    unfold validateMealPlanData at hok
    cases hcf : checkRequiredFields data with
    | error e => rw [hcf] at hok; cases hok
    | ok u =>
      cases u
      rw [hcf, hmeals] at hok
      have hday := exceptForEach_ok _ _ hok d hd
      simp only [checkDay, hcont, harr] at hday
      by_cases hlen : xs.length < 5
      · rw [if_pos hlen] at hday
        cases hday
      · rw [if_neg hlen] at hday
        have := exceptForEach_ok _ _ hday meal hmem
        rw [hmeal d meal n hip hnut hidx hmiss] at this
        cases this
  · intro data e hval
    exact mealPlan_wrap_error data e hval

/-- Witness for C7 at the concrete `payloadC7`. -/
theorem c7_witness :
    validateMealPlanData payloadC7 ≠ .ok () ∧
    checkMeal "monday" badMeal =
      .error ("Missing required nutrient fields in meal item for " ++ "monday") ∧
    generateMealPlanFromData payloadC7 = .error (PyExn.valueError mealGenErrorMsg) := by
  refine ⟨?_, ?_, ?_⟩
  · exact c7_amended.1 payloadC7 (Json.obj sevenDaysBadKvs) "monday" mondayBadList
      badMeal badNutrients rfl (by decide) rfl rfl (List.mem_cons_self badMeal _)
      rfl rfl rfl rfl
  · exact c7_amended.2.1 "monday" badMeal badNutrients rfl rfl rfl rfl
  · exact c7_amended.2.2 payloadC7
      "Missing required nutrient fields in meal item for monday" rfl

/-! ## Parser inversion lemmas (for C4) -/

theorem skipWs_suffix (cs : List Char) : skipWs cs <:+ cs := by
  induction cs with
  | nil => exact List.suffix_rfl
  | cons c t ih =>
    unfold skipWs
    by_cases h : isJsonWs c = true
    · rw [if_pos h]
      exact ih.trans (List.suffix_cons c t)
    · rw [if_neg h]

theorem parseStringBody_suffix_aux (n : ℕ) : ∀ (cs : List Char), cs.length ≤ n →
    ∀ s r, parseStringBody cs = some (s, r) → r <:+ cs := by
  induction n with
  | zero =>
    intro cs hlen s r h
    cases cs with
    | nil => cases h
    | cons c t => simp at hlen
  | succ n ih =>
    intro cs hlen s r h
    cases cs with
    | nil => cases h
    | cons c t =>
      unfold parseStringBody at h
      by_cases hq : c = '"'
      · rw [if_pos hq] at h
        injection h with h1
        injection h1 with h2 h3
        subst h3
        exact List.suffix_cons c t
      · rw [if_neg hq] at h
        by_cases hb : c = '\\'
        · rw [if_pos hb] at h
          cases t with
          | nil => cases h
          | cons d t' =>
            dsimp only at h
            cases hrec : parseStringBody t' with
            | none => rw [hrec] at h; cases h
            | some pr =>
              obtain ⟨s', r'⟩ := pr
              rw [hrec] at h
              injection h with h1
              injection h1 with h2 h3
              subst h3
              have hlen' : t'.length ≤ n := by
                simp only [List.length_cons] at hlen
                omega
              exact ((ih t' hlen' s' r' hrec).trans (List.suffix_cons d t')).trans
                (List.suffix_cons c (d :: t'))
        · rw [if_neg hb] at h
          cases hrec : parseStringBody t with
          | none => rw [hrec] at h; cases h
          | some pr =>
            obtain ⟨s', r'⟩ := pr
            rw [hrec] at h
            injection h with h1
            injection h1 with h2 h3
            subst h3
            have hlen' : t.length ≤ n := by
              simp only [List.length_cons] at hlen
              omega
            exact (ih t hlen' s' r' hrec).trans (List.suffix_cons c t)

theorem parseStringBody_suffix (cs s r : List Char)
    (h : parseStringBody cs = some (s, r)) : r <:+ cs :=
  parseStringBody_suffix_aux cs.length cs le_rfl s r h

theorem takeDigits_suffix (cs : List Char) : (takeDigits cs).2 <:+ cs := by
  induction cs with
  | nil => exact List.suffix_rfl
  | cons c t ih =>
    unfold takeDigits
    by_cases h : isDigitB c = true
    · rw [if_pos h]
      cases htd : takeDigits t with
      | mk ds r =>
        simp only
        rw [htd] at ih
        exact ih.trans (List.suffix_cons c t)
    · rw [if_neg h]

theorem takeDigits_append (cs : List Char) : (takeDigits cs).1 ++ (takeDigits cs).2 = cs := by
  induction cs with
  | nil => rfl
  | cons c t ih =>
    unfold takeDigits
    by_cases h : isDigitB c = true
    · rw [if_pos h]
      cases htd : takeDigits t with
      | mk ds r =>
        simp only [List.cons_append, List.cons.injEq, true_and]
        rw [htd] at ih
        exact ih
    · rw [if_neg h]
      rfl

theorem parseFracPart_suffix (cs : List Char) : (parseFracPart cs).2 <:+ cs := by
  cases cs with
  | nil => exact List.suffix_rfl
  | cons c t =>
    unfold parseFracPart
    dsimp only
    by_cases hc : c = '.'
    · rw [if_pos hc]
      by_cases he : (takeDigits t).1.isEmpty = true
      · rw [if_pos he]
      · rw [if_neg he]
        exact (takeDigits_suffix t).trans (List.suffix_cons c t)
    · rw [if_neg hc]

theorem expDigits_suffix (u orig : List Char) (neg : Bool) (hu : u <:+ orig) :
    (expDigits u orig neg).2 <:+ orig := by
  unfold expDigits
  by_cases he : (takeDigits u).1.isEmpty = true
  · rw [if_pos he]
  · rw [if_neg he]
    exact (takeDigits_suffix u).trans hu

theorem parseExpPart_suffix (cs : List Char) : (parseExpPart cs).2 <:+ cs := by
  cases cs with
  | nil => exact List.suffix_rfl
  | cons c t =>
    unfold parseExpPart
    dsimp only
    by_cases hc : c = 'e' ∨ c = 'E'
    · rw [if_pos hc]
      cases t with
      | nil => exact List.suffix_rfl
      | cons d u =>
        dsimp only
        by_cases hp : d = '+'
        · rw [if_pos hp]
          exact expDigits_suffix u (c :: d :: u) false
            ((List.suffix_cons d u).trans (List.suffix_cons c (d :: u)))
        · rw [if_neg hp]
          by_cases hm : d = '-'
          · rw [if_pos hm]
            exact expDigits_suffix u (c :: d :: u) true
              ((List.suffix_cons d u).trans (List.suffix_cons c (d :: u)))
          · rw [if_neg hm]
            exact expDigits_suffix (d :: u) (c :: d :: u) false (List.suffix_cons c (d :: u))
    · rw [if_neg hc]

theorem parseUnsignedNum_suffix (cs : List Char) (q : ℚ) (r : List Char)
    (h : parseUnsignedNum cs = some (q, r)) : r <:+ cs := by
  unfold parseUnsignedNum at h
  by_cases he : (takeDigits cs).1.isEmpty = true
  · rw [if_pos he] at h
    cases h
  · rw [if_neg he] at h
    by_cases hz : 2 ≤ (takeDigits cs).1.length ∧ (takeDigits cs).1.headD ' ' = '0'
    · rw [if_pos hz] at h
      injection h with h1
      injection h1 with h2 h3
      subst h3
      cases htd : (takeDigits cs).1 with
      | nil => rw [htd] at he; cases he rfl
      | cons d0 dt =>
        have happ := takeDigits_append cs
        rw [htd] at happ
        simp only [List.cons_append] at happ
        simp only [List.tail_cons]
        have hsfx : dt ++ (takeDigits cs).2 <:+ d0 :: (dt ++ (takeDigits cs).2) :=
          List.suffix_cons d0 (dt ++ (takeDigits cs).2)
        rw [happ] at hsfx
        exact hsfx
    · rw [if_neg hz] at h
      injection h with h1
      injection h1 with h2 h3
      subst h3
      exact ((parseExpPart_suffix (parseFracPart (takeDigits cs).2).2).trans
        (parseFracPart_suffix (takeDigits cs).2)).trans (takeDigits_suffix cs)

theorem parseNum_suffix (cs : List Char) (v : Json) (r : List Char)
    (h : parseNum cs = some (v, r)) : r <:+ cs := by
  cases cs with
  | nil => cases h
  | cons c t =>
    unfold parseNum at h
    dsimp only at h
    by_cases hm : c = '-'
    · rw [if_pos hm] at h
      cases hn : parseUnsignedNum t with
      | none => rw [hn] at h; cases h
      | some pr =>
        obtain ⟨q, r'⟩ := pr
        rw [hn] at h
        injection h with h1
        injection h1 with h2 h3
        subst h3
        exact (parseUnsignedNum_suffix t q r' hn).trans (List.suffix_cons c t)
    · rw [if_neg hm] at h
      cases hn : parseUnsignedNum (c :: t) with
      | none => rw [hn] at h; cases h
      | some pr =>
        obtain ⟨q, r'⟩ := pr
        rw [hn] at h
        injection h with h1
        injection h1 with h2 h3
        subst h3
        exact parseUnsignedNum_suffix (c :: t) q r' hn

theorem parseNum_not_obj (cs : List Char) (v : Json) (r : List Char)
    (h : parseNum cs = some (v, r)) : ∀ kvs, v ≠ Json.obj kvs := by
  cases cs with
  | nil => cases h
  | cons c t =>
    unfold parseNum at h
    dsimp only at h
    by_cases hm : c = '-'
    · rw [if_pos hm] at h
      cases hn : parseUnsignedNum t with
      | none => rw [hn] at h; cases h
      | some pr =>
        obtain ⟨q, r'⟩ := pr
        rw [hn] at h
        injection h with h1
        injection h1 with h2 h3
        subst h2
        intro kvs hk
        cases hk
    · rw [if_neg hm] at h
      cases hn : parseUnsignedNum (c :: t) with
      | none => rw [hn] at h; cases h
      | some pr =>
        obtain ⟨q, r'⟩ := pr
        rw [hn] at h
        injection h with h1
        injection h1 with h2 h3
        subst h2
        intro kvs hk
        cases hk

theorem tail_skipWs_suffix {a : List Char} {c : Char} {t : List Char}
    (hws : skipWs a = c :: t) : t <:+ a :=
  (List.suffix_cons c t).trans (hws ▸ skipWs_suffix a)

theorem parser_suffix (fuel : ℕ) :
    (∀ cs v r, parseVal fuel cs = some (v, r) → r <:+ cs) ∧
    (∀ cs kvs r, parseMembers fuel cs = some (kvs, r) → r <:+ cs) ∧
    (∀ cs xs r, parseElems fuel cs = some (xs, r) → r <:+ cs) := by
  induction fuel with
  | zero =>
    refine ⟨?_, ?_, ?_⟩ <;> intro cs a r h <;> cases h
  | succ n ih =>
    obtain ⟨ihV, ihM, ihE⟩ := ih
    refine ⟨?_, ?_, ?_⟩
    · intro cs v r h
      unfold parseVal at h
      cases hws : skipWs cs with
      | nil => rw [hws] at h; cases h
      | cons c rest =>
        rw [hws] at h
        dsimp only at h
        by_cases h1 : c = lbrace
        · rw [if_pos h1] at h
          cases hws2 : skipWs rest with
          | nil => rw [hws2] at h; cases h
          | cons d rest2 =>
            rw [hws2] at h
            dsimp only at h
            by_cases h2 : d = rbrace
            · rw [if_pos h2] at h
              injection h with h'
              injection h' with hv hr
              subst hr
              exact (tail_skipWs_suffix hws2).trans (tail_skipWs_suffix hws)
            · rw [if_neg h2] at h
              cases hm : parseMembers n (d :: rest2) with
              | none => rw [hm] at h; cases h
              | some pr =>
                obtain ⟨kvs, r'⟩ := pr
                rw [hm] at h
                injection h with h'
                injection h' with hv hr
                subst hr
                exact ((ihM (d :: rest2) kvs r' hm).trans
                  (hws2 ▸ skipWs_suffix rest)).trans (tail_skipWs_suffix hws)
        · rw [if_neg h1] at h
          by_cases h2 : c = '['
          · rw [if_pos h2] at h
            cases hws2 : skipWs rest with
            | nil => rw [hws2] at h; cases h
            | cons d rest2 =>
              rw [hws2] at h
              dsimp only at h
              by_cases h3 : d = ']'
              · rw [if_pos h3] at h
                injection h with h'
                injection h' with hv hr
                subst hr
                exact (tail_skipWs_suffix hws2).trans (tail_skipWs_suffix hws)
              · rw [if_neg h3] at h
                cases hm : parseElems n (d :: rest2) with
                | none => rw [hm] at h; cases h
                | some pr =>
                  obtain ⟨xs, r'⟩ := pr
                  rw [hm] at h
                  injection h with h'
                  injection h' with hv hr
                  subst hr
                  exact ((ihE (d :: rest2) xs r' hm).trans
                    (hws2 ▸ skipWs_suffix rest)).trans (tail_skipWs_suffix hws)
          · rw [if_neg h2] at h
            by_cases h3 : c = '"'
            · rw [if_pos h3] at h
              cases hsb : parseStringBody rest with
              | none => rw [hsb] at h; cases h
              | some pr =>
                obtain ⟨s, r'⟩ := pr
                rw [hsb] at h
                injection h with h'
                injection h' with hv hr
                subst hr
                exact (parseStringBody_suffix rest s r' hsb).trans (tail_skipWs_suffix hws)
            · rw [if_neg h3] at h
              by_cases h4 : leadsWith ['t', 'r', 'u', 'e'] (c :: rest) = true
              · rw [if_pos h4] at h
                injection h with h'
                injection h' with hv hr
                subst hr
                exact ((List.drop_suffix 3 rest).trans (List.suffix_cons c rest)).trans
                  (hws ▸ skipWs_suffix cs)
              · rw [if_neg h4] at h
                by_cases h5 : leadsWith ['f', 'a', 'l', 's', 'e'] (c :: rest) = true
                · rw [if_pos h5] at h
                  injection h with h'
                  injection h' with hv hr
                  subst hr
                  exact ((List.drop_suffix 4 rest).trans (List.suffix_cons c rest)).trans
                    (hws ▸ skipWs_suffix cs)
                · rw [if_neg h5] at h
                  by_cases h6 : leadsWith ['n', 'u', 'l', 'l'] (c :: rest) = true
                  · rw [if_pos h6] at h
                    injection h with h'
                    injection h' with hv hr
                    subst hr
                    exact ((List.drop_suffix 3 rest).trans (List.suffix_cons c rest)).trans
                      (hws ▸ skipWs_suffix cs)
                  · rw [if_neg h6] at h
                    exact (parseNum_suffix (c :: rest) v r h).trans (hws ▸ skipWs_suffix cs)
    · intro cs kvs r h
      unfold parseMembers at h
      cases hws : skipWs cs with
      | nil => rw [hws] at h; cases h
      | cons c rest =>
        rw [hws] at h
        dsimp only at h
        by_cases h1 : c = '"'
        · rw [if_pos h1] at h
          cases hsb : parseStringBody rest with
          | none => rw [hsb] at h; cases h
          | some pr =>
            obtain ⟨k, r1⟩ := pr
            rw [hsb] at h
            dsimp only at h
            have hr1 : r1 <:+ cs :=
              (parseStringBody_suffix rest k r1 hsb).trans (tail_skipWs_suffix hws)
            cases hws2 : skipWs r1 with
            | nil => rw [hws2] at h; cases h
            | cons c2 r2 =>
              rw [hws2] at h
              dsimp only at h
              by_cases h2 : c2 = ':'
              · rw [if_pos h2] at h
                cases hpv : parseVal n r2 with
                | none => rw [hpv] at h; cases h
                | some pr2 =>
                  obtain ⟨v, r3⟩ := pr2
                  rw [hpv] at h
                  dsimp only at h
                  have hr3 : r3 <:+ cs :=
                    ((ihV r2 v r3 hpv).trans (tail_skipWs_suffix hws2)).trans hr1
                  cases hws3 : skipWs r3 with
                  | nil => rw [hws3] at h; cases h
                  | cons c3 r4 =>
                    rw [hws3] at h
                    dsimp only at h
                    have hr4 : r4 <:+ cs := (tail_skipWs_suffix hws3).trans hr3
                    by_cases h3 : c3 = ','
                    · rw [if_pos h3] at h
                      cases hpm : parseMembers n r4 with
                      | none => rw [hpm] at h; cases h
                      | some pr3 =>
                        obtain ⟨kvs', r'⟩ := pr3
                        rw [hpm] at h
                        injection h with h'
                        injection h' with hv hr
                        subst hr
                        exact (ihM r4 kvs' r' hpm).trans hr4
                    · rw [if_neg h3] at h
                      by_cases h4 : c3 = rbrace
                      · rw [if_pos h4] at h
                        injection h with h'
                        injection h' with hv hr
                        subst hr
                        exact hr4
                      · rw [if_neg h4] at h
                        cases h
              · rw [if_neg h2] at h
                cases h
        · rw [if_neg h1] at h
          cases h
    · intro cs xs r h
      unfold parseElems at h
      cases hpv : parseVal n cs with
      | none => rw [hpv] at h; cases h
      | some pr =>
        obtain ⟨v, r1⟩ := pr
        rw [hpv] at h
        dsimp only at h
        have hr1 : r1 <:+ cs := ihV cs v r1 hpv
        cases hws : skipWs r1 with
        | nil => rw [hws] at h; cases h
        | cons c r2 =>
          rw [hws] at h
          dsimp only at h
          have hr2 : r2 <:+ cs := (tail_skipWs_suffix hws).trans hr1
          by_cases h1 : c = ','
          · rw [if_pos h1] at h
            cases hpe : parseElems n r2 with
            | none => rw [hpe] at h; cases h
            | some pr2 =>
              obtain ⟨xs', r'⟩ := pr2
              rw [hpe] at h
              injection h with h'
              injection h' with hv hr
              subst hr
              exact (ihE r2 xs' r' hpe).trans hr2
          · rw [if_neg h1] at h
            by_cases h2 : c = ']'
            · rw [if_pos h2] at h
              injection h with h'
              injection h' with hv hr
              subst hr
              exact hr2
            · rw [if_neg h2] at h
              cases h

theorem parseMembers_rbrace (fuel : ℕ) : ∀ cs kvs r,
    parseMembers fuel cs = some (kvs, r) → rbrace ∈ cs := by
  induction fuel with
  | zero => intro cs kvs r h; cases h
  | succ n ih =>
    intro cs kvs r h
    unfold parseMembers at h
    cases hws : skipWs cs with
    | nil => rw [hws] at h; cases h
    | cons c rest =>
      rw [hws] at h
      dsimp only at h
      by_cases h1 : c = '"'
      · rw [if_pos h1] at h
        cases hsb : parseStringBody rest with
        | none => rw [hsb] at h; cases h
        | some pr =>
          obtain ⟨k, r1⟩ := pr
          rw [hsb] at h
          dsimp only at h
          have hr1 : r1 <:+ cs :=
            (parseStringBody_suffix rest k r1 hsb).trans (tail_skipWs_suffix hws)
          cases hws2 : skipWs r1 with
          | nil => rw [hws2] at h; cases h
          | cons c2 r2 =>
            rw [hws2] at h
            dsimp only at h
            by_cases h2 : c2 = ':'
            · rw [if_pos h2] at h
              cases hpv : parseVal n r2 with
              | none => rw [hpv] at h; cases h
              | some pr2 =>
                obtain ⟨v, r3⟩ := pr2
                rw [hpv] at h
                dsimp only at h
                have hr3 : r3 <:+ cs :=
                  (((parser_suffix n).1 r2 v r3 hpv).trans (tail_skipWs_suffix hws2)).trans hr1
                cases hws3 : skipWs r3 with
                | nil => rw [hws3] at h; cases h
                | cons c3 r4 =>
                  rw [hws3] at h
                  dsimp only at h
                  have hmem34 : ∀ x, x ∈ c3 :: r4 → x ∈ cs := by
                    intro x hx
                    have hx3 : x ∈ r3 := (hws3 ▸ skipWs_suffix r3).subset hx
                    exact hr3.subset hx3
                  by_cases h3 : c3 = ','
                  · rw [if_pos h3] at h
                    cases hpm : parseMembers n r4 with
                    | none => rw [hpm] at h; cases h
                    | some pr3 =>
                      obtain ⟨kvs', r'⟩ := pr3
                      rw [hpm] at h
                      have hr4 := ih r4 kvs' r' hpm
                      exact hmem34 rbrace (List.mem_cons_of_mem c3 hr4)
                  · rw [if_neg h3] at h
                    by_cases h4 : c3 = rbrace
                    · subst h4
                      exact hmem34 rbrace (List.mem_cons_self rbrace r4)
                    · rw [if_neg h4] at h
                      cases h
            · rw [if_neg h2] at h
              cases h
      · rw [if_neg h1] at h
        cases h

theorem parseVal_obj_braces (fuel : ℕ) (cs : List Char) (kvs : List (String × Json))
    (r : List Char) (h : parseVal fuel cs = some (Json.obj kvs, r)) :
    ∃ pre mid, cs = pre ++ lbrace :: mid ∧ rbrace ∈ mid := by
  cases fuel with
  | zero => cases h
  | succ n =>
    unfold parseVal at h
    cases hws : skipWs cs with
    | nil => rw [hws] at h; cases h
    | cons c rest =>
      rw [hws] at h
      dsimp only at h
      have hsufws : c :: rest <:+ cs := hws ▸ skipWs_suffix cs
      by_cases h1 : c = lbrace
      · subst h1
        obtain ⟨pre, hpre⟩ := hsufws
        refine ⟨pre, rest, hpre.symm, ?_⟩
        cases hws2 : skipWs rest with
        | nil => rw [hws2] at h; cases h
        | cons d rest2 =>
          rw [hws2] at h
          dsimp only at h
          have hd2 : ∀ x, x ∈ d :: rest2 → x ∈ rest := fun x hx =>
            (hws2 ▸ skipWs_suffix rest).subset hx
          by_cases h2 : d = rbrace
          · subst h2
            exact hd2 rbrace (List.mem_cons_self rbrace rest2)
          · rw [if_neg h2] at h
            cases hm : parseMembers n (d :: rest2) with
            | none => rw [hm] at h; cases h
            | some pr =>
              obtain ⟨kvs', r'⟩ := pr
              rw [hm] at h
              exact hd2 rbrace (parseMembers_rbrace n (d :: rest2) kvs' r' hm)
      · rw [if_neg h1] at h
        exfalso
        by_cases h2 : c = '['
        · rw [if_pos h2] at h
          cases hws2 : skipWs rest with
          | nil => rw [hws2] at h; cases h
          | cons d rest2 =>
            rw [hws2] at h
            dsimp only at h
            by_cases h3 : d = ']'
            · rw [if_pos h3] at h
              injection h with h'
              injection h' with hv hr
              cases hv
            · rw [if_neg h3] at h
              cases hm : parseElems n (d :: rest2) with
              | none => rw [hm] at h; cases h
              | some pr =>
                obtain ⟨xs, r'⟩ := pr
                rw [hm] at h
                injection h with h'
                injection h' with hv hr
                cases hv
        · rw [if_neg h2] at h
          by_cases h3 : c = '"'
          · rw [if_pos h3] at h
            cases hsb : parseStringBody rest with
            | none => rw [hsb] at h; cases h
            | some pr =>
              obtain ⟨s, r'⟩ := pr
              rw [hsb] at h
              injection h with h'
              injection h' with hv hr
              cases hv
          · rw [if_neg h3] at h
            by_cases h4 : leadsWith ['t', 'r', 'u', 'e'] (c :: rest) = true
            · rw [if_pos h4] at h
              injection h with h'
              injection h' with hv hr
              cases hv
            · rw [if_neg h4] at h
              by_cases h5 : leadsWith ['f', 'a', 'l', 's', 'e'] (c :: rest) = true
              · rw [if_pos h5] at h
                injection h with h'
                injection h' with hv hr
                cases hv
              · rw [if_neg h5] at h
                by_cases h6 : leadsWith ['n', 'u', 'l', 'l'] (c :: rest) = true
                · rw [if_pos h6] at h
                  injection h with h'
                  injection h' with hv hr
                  cases hv
                · rw [if_neg h6] at h
                  exact parseNum_not_obj (c :: rest) (Json.obj kvs) r h kvs rfl

theorem firstIdx_of_split (pre mid : List Char) :
    ∃ i, firstIdx lbrace (pre ++ lbrace :: mid) = some i ∧ i ≤ pre.length := by
  induction pre with
  | nil =>
    refine ⟨0, ?_, le_rfl⟩
    simp [firstIdx]
  | cons p pre' ih =>
    obtain ⟨i, hi, hle⟩ := ih
    by_cases hp : p = lbrace
    · refine ⟨0, ?_, Nat.zero_le _⟩
      simp [firstIdx, hp]
    · refine ⟨i + 1, ?_, by simpa using Nat.succ_le_succ hle⟩
      simp only [List.cons_append, firstIdx, if_neg hp, List.append_eq, hi, Option.map_some']

theorem lastIdx_some_of_mem (c : Char) (cs : List Char) (h : c ∈ cs) :
    ∃ k, lastIdx c cs = some k := by
  induction cs with
  | nil => cases h
  | cons x xs ih =>
    cases hm : lastIdx c xs with
    | some k => exact ⟨k + 1, by simp [lastIdx, hm]⟩
    | none =>
      rcases List.mem_cons.mp h with hcx | hmem
      · refine ⟨0, ?_⟩
        simp [lastIdx, hm, hcx.symm]
      · obtain ⟨k, hk⟩ := ih hmem
        rw [hk] at hm
        cases hm

theorem lastIdx_of_split (pre mid : List Char) (hmem : rbrace ∈ mid) :
    ∃ j, lastIdx rbrace (pre ++ lbrace :: mid) = some j ∧ pre.length < j := by
  induction pre with
  | nil =>
    obtain ⟨k, hk⟩ := lastIdx_some_of_mem rbrace mid hmem
    refine ⟨k + 1, ?_, Nat.succ_pos k⟩
    simp [lastIdx, hk]
  | cons p pre' ih =>
    obtain ⟨j, hj, hlt⟩ := ih
    refine ⟨j + 1, ?_, Nat.succ_lt_succ hlt⟩
    simp only [List.cons_append, lastIdx, List.append_eq, hj]

theorem parse_obj_braceCond (cs : List Char) (kvs : List (String × Json))
    (h : Json.parse cs = some (Json.obj kvs)) : braceSliceCond cs = true := by
  unfold Json.parse at h
  cases hp : parseVal (2 * cs.length + 2) cs with
  | none => rw [hp] at h; cases h
  | some pr =>
    obtain ⟨v, rest⟩ := pr
    rw [hp] at h
    dsimp only at h
    by_cases hws : skipWs rest = []
    · rw [if_pos hws] at h
      injection h with hv
      subst hv
      obtain ⟨pre, mid, heq, hmem⟩ :=
        parseVal_obj_braces (2 * cs.length + 2) cs kvs rest hp
      subst heq
      obtain ⟨i, hfi, hile⟩ := firstIdx_of_split pre mid
      obtain ⟨j, hlj, hjgt⟩ := lastIdx_of_split pre mid hmem
      unfold braceSliceCond
      rw [hfi, hlj]
      simp only [decide_eq_true_eq]
      omega
    · rw [if_neg hws] at h
      cases h

theorem extractCandidate_eq_slice (cs : List Char) (i j : ℕ)
    (hf : firstIdx lbrace cs = some i) (hl : lastIdx rbrace cs = some j)
    (hij : i ≤ j) : extractCandidate cs = (cs.drop i).take (j + 1 - i) := by
  unfold extractCandidate
  rw [hf, hl]
  dsimp only
  rw [if_pos hij]

theorem extractCandidate_eq_self (cs : List Char) (hc : braceSliceCond cs = false) :
    extractCandidate cs = cs := by
  cases hf : firstIdx lbrace cs with
  | none =>
    unfold extractCandidate
    rw [hf]
  | some i =>
    cases hl : lastIdx rbrace cs with
    | none =>
      unfold extractCandidate
      rw [hf, hl]
    | some j =>
      have hbc : braceSliceCond cs = decide (i ≤ j) := by
        unfold braceSliceCond
        rw [hf, hl]
      rw [hbc] at hc
      simp only [decide_eq_false_iff_not] at hc
      unfold extractCandidate
      rw [hf, hl]
      dsimp only
      rw [if_neg hc]

/-- Claim C4: when an LLM reply is a text string, the parsers of
`generate_meal_plan` and `generate_workout_plan` take the substring from
the first `{` to the last `}` and JSON-parse it; if that substring does
not exist (no `{`, no `}`, or the last `}` before the first `{`) or
parsing the candidate fails, both operations fail with the parse-error
`ValueError`, never producing a plan. -/
theorem c4_brace_extraction_and_parse (text : String) :
    (∀ i j, firstIdx lbrace text.data = some i → lastIdx rbrace text.data = some j →
      i ≤ j → extractCandidate text.data = (text.data.drop i).take (j + 1 - i)) ∧
    (Json.parse (extractCandidate text.data) = none →
      generateMealPlanModel text = .error (PyExn.valueError mealGenErrorMsg) ∧
      generateWorkoutPlanModel text = .error (PyExn.valueError workoutGenErrorMsg)) ∧
    (braceSliceCond text.data = false →
      generateMealPlanModel text = .error (PyExn.valueError mealGenErrorMsg) ∧
      generateWorkoutPlanModel text = .error (PyExn.valueError workoutGenErrorMsg)) := by
  refine ⟨?_, ?_, ?_⟩
  · intro i j hf hl hij
    exact extractCandidate_eq_slice text.data i j hf hl hij
  · intro hp
    constructor
    · unfold generateMealPlanModel
      rw [hp]
    · unfold generateWorkoutPlanModel
      rw [hp]
  · intro hb
    have hself := extractCandidate_eq_self text.data hb
    constructor
    · unfold generateMealPlanModel
      cases hp : Json.parse (extractCandidate text.data) with
      | none => rfl
      | some data =>
        dsimp only
        cases hmp : mealPlanFromData data with
        | error e => simp [generateMealPlanFromData, hmp]
        | ok plan =>
          exfalso
          unfold mealPlanFromData at hmp
          cases hv : validateMealPlanData data with
          | error e => rw [hv] at hmp; cases hmp
          | ok u =>
            unfold validateMealPlanData at hv
            cases hcf : checkRequiredFields data with
            | error e => rw [hcf] at hv; cases hv
            | ok u2 =>
              rw [hcf] at hv
              cases hmi : pyIndex data "meals" with
              | error e => rw [hmi] at hv; cases hv
              | ok meals =>
                obtain ⟨kvs, hk⟩ := pyIndex_ok_obj data "meals" meals hmi
                subst hk
                rw [hself] at hp
                have hbc := parse_obj_braceCond text.data kvs hp
                rw [hbc] at hb
                cases hb
    · unfold generateWorkoutPlanModel
      cases hp : Json.parse (extractCandidate text.data) with
      | none => rfl
      | some data =>
        dsimp only
        cases hmp : workoutPlanFromData data with
        | error e => simp [generateWorkoutPlanFromData, hmp]
        | ok plan =>
          exfalso
          unfold workoutPlanFromData at hmp
          cases hmi : pyIndex data "weekly_schedule" with
          | error e => rw [hmi] at hmp; cases hmp
          | ok schedVal =>
            obtain ⟨kvs, hk⟩ := pyIndex_ok_obj data "weekly_schedule" schedVal hmi
            subst hk
            rw [hself] at hp
            have hbc := parse_obj_braceCond text.data kvs hp
            rw [hbc] at hb
            cases hb

/-- Witness for C4: extraction at a text with surrounding noise, parse
failure at `"{{"`, and the no-substring case at brace-free text. -/
theorem c4_witness :
    extractCandidate ("ab\x7b\"k\":1\x7dcd").data =
      ((("ab\x7b\"k\":1\x7dcd").data.drop 2).take (8 + 1 - 2)) ∧
    (generateMealPlanModel "\x7b\x7b" = .error (PyExn.valueError mealGenErrorMsg) ∧
      generateWorkoutPlanModel "\x7b\x7b" = .error (PyExn.valueError workoutGenErrorMsg)) ∧
    (generateMealPlanModel "no braces here" = .error (PyExn.valueError mealGenErrorMsg) ∧
      generateWorkoutPlanModel "no braces here" =
        .error (PyExn.valueError workoutGenErrorMsg)) :=
  ⟨(c4_brace_extraction_and_parse "ab\x7b\"k\":1\x7dcd").1 2 8 rfl rfl (by decide),
   (c4_brace_extraction_and_parse "\x7b\x7b").2.1 rfl,
   (c4_brace_extraction_and_parse "no braces here").2.2 rfl⟩
